import Mathlib

/-!
Shallow embedding of `youtube_transcript_api/_api.py` (class `YouTubeTranscriptApi`)
and, where `_api.py` delegates to the sibling modules `_transcripts.py` /
`_errors.py` that are not part of the sampled source, of the behaviour the
specification assigns to those collaborators (each such definition is marked
"Modelled from the spec:").

Network and filesystem effects are abstracted into an `Env` record of oracles:
the embedded functions are pure and parameterised by the oracle, exceptions
become `Except PyExc`.
-/

/-- One timed text cue: `{text, start, duration}` (spec §3, "Cue").
Seconds are represented as rationals; no claim inspects their arithmetic. -/
structure Cue where
  text : String
  start : Rat
  duration : Rat
deriving DecidableEq, Repr

/-- Modelled from the spec: the Transcript Descriptor (§3) — the `Transcript`
class of `_transcripts.py`, which is not part of the sampled source.
`translation_languages` is the ordered sequence of (code, name) pairs. -/
structure Transcript where
  video_id : String
  language : String
  language_code : String
  is_generated : Bool
  is_translatable : Bool
  translation_languages : List (String × String)
deriving DecidableEq, Repr

/-- Modelled from the spec: the Transcript Catalog (§3) — the `TranscriptList`
class of `_transcripts.py`, which is not part of the sampled source; it keeps
manually created and generated tracks apart (§4.2). -/
structure TranscriptList where
  video_id : String
  manually_created_transcripts : List Transcript
  generated_transcripts : List Transcript
deriving DecidableEq, Repr

/-- The Python exceptions that flow through `_api.py`: the stdlib classes named
in `CookieLoadError = (FileNotFoundError, cookiejar.LoadError)` (`_api.py`
lines 3-10), `AssertionError` from the `assert` statements, and the error
taxonomy of `_errors.py` (spec §7). `otherExc` stands for any further
`Exception` subclass an oracle may raise. -/
inductive PyExc where
  | assertionError
  | fileNotFoundError
  | cookiejarLoadError
  | cookiePathInvalid (video_id : String)
  | cookiesInvalid (video_id : String)
  | noTranscriptFound (video_id : String) (requested_language_codes : List String)
      (available_language_codes : List String)
  | notTranslatable (video_id : String)
  | translationLanguageNotAvailable (video_id : String)
  | couldNotRetrieveTranscript (video_id : String)
  | otherExc (tag : String)
deriving DecidableEq, Repr

/-- Membership in the exception tuple `CookieLoadError = (FileNotFoundError,
cookiejar.LoadError)` (`_api.py` lines 3-10): the classes of `_errors.py`
(`CookiePathInvalid`, `CookiesInvalid`, ...) are not subclasses of either. -/
def PyExc.isCookieLoadError : PyExc → Bool
  | .fileNotFoundError => true
  | .cookiejarLoadError => true
  | _ => false

/-- A loaded cookie jar, abstracted to its list of cookies (only emptiness and
identity matter to `_api.py`). -/
abbrev CookieJar := List String

/-- A `requests` proxy map (`{'http': ..., 'https': ...}`). -/
abbrev ProxyMap := List (String × String)

/-- A `requests` `verify` value: a boolean or a CA-certificate path. -/
inductive VerifyValue where
  | boolean (b : Bool)
  | caPath (s : String)
deriving DecidableEq, Repr

/-- The `requests.Session` state `list_transcripts` configures (`_api.py`
lines 69-74): cookie jar, proxy map, TLS-verify setting. -/
structure Session where
  cookies : CookieJar
  proxies : ProxyMap
  verify : VerifyValue
deriving DecidableEq, Repr

/-- A fresh `requests.Session()`: empty cookie jar, empty proxy map,
`verify = True`. -/
def defaultSession : Session :=
  { cookies := [], proxies := [], verify := VerifyValue.boolean true }

/-- The effectful collaborators of `_api.py`, abstracted as oracles:
`loadCookieFile` is `cookiejar.MozillaCookieJar().load(path)` (result, or the
exception it raises), `listResult` is `TranscriptListFetcher(http_client).fetch(video_id)`,
`fetchPayload` is `transcript.fetch(preserve_formatting=...)`. -/
structure Env where
  loadCookieFile : String → Except PyExc CookieJar
  listResult : Session → String → Except PyExc TranscriptList
  fetchPayload : Transcript → Bool → Except PyExc (List Cue)

/-- The `try`-body of `_load_cookies` (`_api.py` lines 172-177): load the
jar, raise `CookiesInvalid(video_id)` when the loaded jar is falsy (empty),
otherwise return it. -/
def loadCookiesBody (env : Env) (cookies video_id : String) : Except PyExc CookieJar :=
  match env.loadCookieFile cookies with
  | .error e => .error e
  | .ok jar => if jar.isEmpty then .error (.cookiesInvalid video_id) else .ok jar

/-- `YouTubeTranscriptApi._load_cookies` (`_api.py` lines 170-179): the
`except CookieLoadError` clause turns only `FileNotFoundError` /
`cookiejar.LoadError` into `CookiePathInvalid(video_id)`; `CookiesInvalid`,
raised inside the `try`, is not a `CookieLoadError` and propagates unchanged. -/
def load_cookies (env : Env) (cookies video_id : String) : Except PyExc CookieJar :=
  match loadCookiesBody env cookies video_id with
  | .ok jar => .ok jar
  | .error e =>
      if e.isCookieLoadError then .error (.cookiePathInvalid video_id) else .error e

/-- Python truthiness of the `cookies` argument, as tested by `if cookies:`
(`_api.py` line 70): `None` and the empty string are falsy. -/
def cookiesTruthy : Option String → Bool
  | none => false
  | some s => !(s == "")

/-- The session-configuration prologue of `list_transcripts` (`_api.py`
lines 69-74): `if cookies: http_client.cookies = cls._load_cookies(cookies, video_id)`,
then `http_client.proxies = proxies if proxies else {}`, then
`if verify is not None: http_client.verify = verify`. -/
def configureSession (env : Env) (video_id : String) (proxies : Option ProxyMap)
    (cookies : Option String) (verify : Option VerifyValue) : Except PyExc Session :=
  let step1 : Except PyExc Session :=
    match cookies with
    | some c =>
        if c == "" then .ok defaultSession
        else
          match load_cookies env c video_id with
          | .error e => .error e
          | .ok jar => .ok { defaultSession with cookies := jar }
    | none => .ok defaultSession
  match step1 with
  | .error e => .error e
  | .ok s1 =>
      let s2 : Session :=
        { s1 with proxies := (match proxies with
                              | some p => if p.isEmpty then [] else p
                              | none => []) }
      let s3 : Session :=
        match verify with
        | some v => { s2 with verify := v }
        | none => s2
      .ok s3

/-- `YouTubeTranscriptApi.list_transcripts` (`_api.py` lines 19-76): configure
the session, then `TranscriptListFetcher(http_client).fetch(video_id)`. -/
def list_transcripts (env : Env) (video_id : String) (proxies : Option ProxyMap)
    (cookies : Option String) (verify : Option VerifyValue) : Except PyExc TranscriptList :=
  match configureSession env video_id proxies cookies verify with
  | .error e => .error e
  | .ok s => env.listResult s video_id

/-- Modelled from the spec: the primary language subtag ignoring region, used
for approximate matching — requested `"en"` matches available `"en-US"`
(§4.2 step 1b): the code up to the first subtag separator. -/
def primarySubtag (code : String) : String :=
  String.mk (code.data.takeWhile (fun ch => ch != '-'))

/-- Modelled from the spec: the Descriptors `find_transcript` searches —
manual before generated, so that a manual track is preferred over a generated
one at equal rank (§4.2, convenience variants). -/
def TranscriptList.eitherOriginTranscripts (tl : TranscriptList) : List Transcript :=
  tl.manually_created_transcripts ++ tl.generated_transcripts

/-- The language codes actually available in the Catalog, enumerated in the
"no matching transcript found" failure payload (spec §4.2 step 2, §7). -/
def TranscriptList.availableLanguageCodes (tl : TranscriptList) : List String :=
  tl.eitherOriginTranscripts.map Transcript.language_code

/-- Modelled from the spec: the exact pass of `find_transcript` — for each
requested code in priority order, the first Descriptor whose `language_code`
matches exactly (§4.2 step 1a). -/
def findExactPass (ds : List Transcript) : List String → Option Transcript
  | [] => none
  | code :: rest =>
      match ds.find? (fun d => d.language_code == code) with
      | some t => some t
      | none => findExactPass ds rest

/-- Modelled from the spec: the approximate pass of `find_transcript` — for
each requested code in priority order, the first Descriptor whose
`language_code` has the same primary subtag (§4.2 step 1b). -/
def findApproxPass (ds : List Transcript) : List String → Option Transcript
  | [] => none
  | code :: rest =>
      match ds.find? (fun d => primarySubtag d.language_code == primarySubtag code) with
      | some t => some t
      | none => findApproxPass ds rest

/-- Modelled from the spec: the two-pass, priority-ordered matching of §4.2 —
the exact pass over ALL requested languages completes before any approximate
matching begins; no match at all raises the typed "no matching transcript
found" failure carrying the Catalog's available language codes. -/
def findTranscriptIn (video_id : String) (available : List String)
    (ds : List Transcript) (requested : List String) : Except PyExc Transcript :=
  match findExactPass ds requested with
  | some t => .ok t
  | none =>
      match findApproxPass ds requested with
      | some t => .ok t
      | none => .error (.noTranscriptFound video_id requested available)

/-- Modelled from the spec: `TranscriptList.find_transcript(language_codes)`
(§4.2) — either origin, manual preferred at equal rank. -/
def TranscriptList.find_transcript (tl : TranscriptList) (requested : List String) :
    Except PyExc Transcript :=
  findTranscriptIn tl.video_id tl.availableLanguageCodes tl.eitherOriginTranscripts requested

/-- Modelled from the spec: `Transcript.translate(target_language_code)`
(§4.3) — requires `is_translatable` and an offered target; returns a NEW
Descriptor with `is_translatable` false and `translation_languages` empty,
`is_generated` unchanged; the receiver is never mutated. -/
def Transcript.translate (t : Transcript) (code : String) : Except PyExc Transcript :=
  if t.is_translatable = false then
    .error (.notTranslatable t.video_id)
  else if (t.translation_languages.any (fun p => p.1 == code)) = false then
    .error (.translationLanguageNotAvailable t.video_id)
  else
    .ok { t with is_translatable := false, translation_languages := [] }

/-- The Python runtime values the `isinstance` assertions of `_api.py`
distinguish, restricted to the shapes the claims exercise (video-id lists
whose elements are strings). -/
inductive PyValue where
  | str (s : String)
  | intVal (n : Int)
  | boolVal (b : Bool)
  | noneVal
  | pylist (xs : List String)
deriving DecidableEq, Repr

/-- `isinstance(v, str)`. -/
def PyValue.isinstanceStr : PyValue → Bool
  | .str _ => true
  | _ => false

/-- `isinstance(v, list)`. -/
def PyValue.isinstanceList : PyValue → Bool
  | .pylist _ => true
  | _ => false

/-- The body of `get_transcript` after its assertion (`_api.py` lines 164-168):
`cls.list_transcripts(video_id, proxies, cookies, verify).find_transcript(languages).fetch(preserve_formatting=preserve_formatting)`. -/
def getTranscriptBody (env : Env) (video_id : String) (languages : List String)
    (proxies : Option ProxyMap) (cookies : Option String) (preserve_formatting : Bool)
    (verify : Option VerifyValue) : Except PyExc (List Cue) :=
  match list_transcripts env video_id proxies cookies verify with
  | .error e => .error e
  | .ok tl =>
      match tl.find_transcript languages with
      | .error e => .error e
      | .ok t => env.fetchPayload t preserve_formatting

/-- `YouTubeTranscriptApi.get_transcript` (`_api.py` lines 131-168):
`assert isinstance(video_id, str)`, then the list/find/fetch composition. -/
def get_transcript (env : Env) (video_id : PyValue) (languages : List String)
    (proxies : Option ProxyMap) (cookies : Option String) (preserve_formatting : Bool)
    (verify : Option VerifyValue) : Except PyExc (List Cue) :=
  match video_id with
  | .str s => getTranscriptBody env s languages proxies cookies preserve_formatting verify
  | _ => .error .assertionError

/-- Python dict assignment `data[k] = v` on an insertion-ordered dictionary:
replace in place when the key exists, append otherwise. -/
def dictInsert (d : List (String × List Cue)) (k : String) (v : List Cue) :
    List (String × List Cue) :=
  if d.any (fun p => p.1 == k) then
    d.map (fun p => if p.1 == k then (k, v) else p)
  else
    d ++ [(k, v)]

/-- The per-video loop of `get_transcripts` (`_api.py` lines 115-129):
`try: data[video_id] = cls.get_transcript(...)` — on exception, re-raise
unless `continue_after_error`, in which case the id is appended to
`unretrievable_videos` and the loop continues. -/
def getTranscriptsLoop (env : Env) (languages : List String) (continue_after_error : Bool)
    (proxies : Option ProxyMap) (cookies : Option String) (preserve_formatting : Bool)
    (verify : Option VerifyValue) :
    List String → List (String × List Cue) → List String →
    Except PyExc (List (String × List Cue) × List String)
  | [], data, unretrievable_videos => .ok (data, unretrievable_videos)
  | vid :: rest, data, unretrievable_videos =>
      match get_transcript env (.str vid) languages proxies cookies preserve_formatting verify with
      | .ok t =>
          getTranscriptsLoop env languages continue_after_error proxies cookies
            preserve_formatting verify rest (dictInsert data vid t) unretrievable_videos
      | .error e =>
          if continue_after_error then
            getTranscriptsLoop env languages continue_after_error proxies cookies
              preserve_formatting verify rest data (unretrievable_videos ++ [vid])
          else
            .error e

/-- `YouTubeTranscriptApi.get_transcripts` (`_api.py` lines 78-129):
`assert isinstance(video_ids, list)`, then the per-video loop starting from an
empty dict and an empty unretrievable list. -/
def get_transcripts (env : Env) (video_ids : PyValue) (languages : List String)
    (continue_after_error : Bool) (proxies : Option ProxyMap) (cookies : Option String)
    (preserve_formatting : Bool) (verify : Option VerifyValue) :
    Except PyExc (List (String × List Cue) × List String) :=
  match video_ids with
  | .pylist ids =>
      getTranscriptsLoop env languages continue_after_error proxies cookies
        preserve_formatting verify ids [] []
  | _ => .error .assertionError

/-- Instrumentation of the `get_transcripts` loop: same computation, plus the
ordered list of video ids that are passed to `get_transcript` (one entry per
attempt). -/
def getTranscriptsLoopTraced (env : Env) (languages : List String)
    (continue_after_error : Bool) (proxies : Option ProxyMap) (cookies : Option String)
    (preserve_formatting : Bool) (verify : Option VerifyValue) :
    List String → List (String × List Cue) → List String →
    Except PyExc (List (String × List Cue) × List String) × List String
  | [], data, unretrievable_videos => (.ok (data, unretrievable_videos), [])
  | vid :: rest, data, unretrievable_videos =>
      match get_transcript env (.str vid) languages proxies cookies preserve_formatting verify with
      | .ok t =>
          let r := getTranscriptsLoopTraced env languages continue_after_error proxies cookies
            preserve_formatting verify rest (dictInsert data vid t) unretrievable_videos
          (r.1, vid :: r.2)
      | .error e =>
          if continue_after_error then
            let r := getTranscriptsLoopTraced env languages continue_after_error proxies cookies
              preserve_formatting verify rest data (unretrievable_videos ++ [vid])
            (r.1, vid :: r.2)
          else
            (.error e, [vid])

/-- Whether retrieving one video id fails (the loop's `except Exception`
branch is taken for it). -/
def fetchFails (env : Env) (languages : List String) (proxies : Option ProxyMap)
    (cookies : Option String) (preserve_formatting : Bool) (verify : Option VerifyValue)
    (vid : String) : Bool :=
  match get_transcript env (.str vid) languages proxies cookies preserve_formatting verify with
  | .ok _ => false
  | .error _ => true

/-- One successful-path step of the `get_transcripts` dict accumulation. -/
def dataStep (env : Env) (languages : List String) (proxies : Option ProxyMap)
    (cookies : Option String) (preserve_formatting : Bool) (verify : Option VerifyValue)
    (data : List (String × List Cue)) (vid : String) : List (String × List Cue) :=
  match get_transcript env (.str vid) languages proxies cookies preserve_formatting verify with
  | .ok t => dictInsert data vid t
  | .error _ => data

/-- The composition named by the spec's data-flow sentence and by
`get_transcript`'s own docstring:
`list_transcripts(video_id, proxies, cookies, verify).find_transcript(languages).fetch(preserve_formatting=preserve_formatting)`. -/
def listFindFetchComposition (env : Env) (video_id : String) (languages : List String)
    (proxies : Option ProxyMap) (cookies : Option String) (verify : Option VerifyValue)
    (preserve_formatting : Bool) : Except PyExc (List Cue) :=
  Except.bind (list_transcripts env video_id proxies cookies verify) (fun tl =>
    Except.bind (tl.find_transcript languages) (fun t =>
      env.fetchPayload t preserve_formatting))

/-- A call to `get_transcript` in which `languages` and `preserve_formatting`
may be omitted (`Option.none`): omitted parameters take the defaults of the
Python signature `languages=("en",), preserve_formatting=False`
(`_api.py` lines 131-140). -/
def getTranscriptCall (env : Env) (video_id : PyValue) (languagesArg : Option (List String))
    (proxies : Option ProxyMap) (cookies : Option String)
    (preserveFormattingArg : Option Bool) (verify : Option VerifyValue) :
    Except PyExc (List Cue) :=
  get_transcript env video_id (Option.getD languagesArg ["en"]) proxies cookies
    (Option.getD preserveFormattingArg false) verify

/-- A call to `get_transcripts` in which `languages` and `preserve_formatting`
may be omitted: omitted parameters take the defaults of the Python signature
`languages=("en",), preserve_formatting=False` (`_api.py` lines 78-88). -/
def getTranscriptsCall (env : Env) (video_ids : PyValue) (languagesArg : Option (List String))
    (continue_after_error : Bool) (proxies : Option ProxyMap) (cookies : Option String)
    (preserveFormattingArg : Option Bool) (verify : Option VerifyValue) :
    Except PyExc (List (String × List Cue) × List String) :=
  get_transcripts env video_ids (Option.getD languagesArg ["en"]) continue_after_error
    proxies cookies (Option.getD preserveFormattingArg false) verify

/-! ## Concrete fixtures used by witnesses -/

/-- A concrete manual English Descriptor, translatable into German. -/
def transcriptEn : Transcript :=
  { video_id := "vid1", language := "English", language_code := "en",
    is_generated := false, is_translatable := true,
    translation_languages := [("de", "German")] }

/-- A concrete Catalog holding only `transcriptEn`. -/
def catalogEx : TranscriptList :=
  { video_id := "vid1", manually_created_transcripts := [transcriptEn],
    generated_transcripts := [] }

/-- A concrete cue. -/
def cueEx : Cue := { text := "hi", start := 0, duration := 1 }

/-- A concrete oracle: cookie files load to a one-cookie jar, video id "bad"
is unreachable, every other id lists `catalogEx`, payload fetches succeed. -/
def envEx : Env :=
  { loadCookieFile := fun _ => .ok ["cookie1"],
    listResult := fun _ vid =>
      if vid == "bad" then .error (.couldNotRetrieveTranscript "bad") else .ok catalogEx,
    fetchPayload := fun _ _ => .ok [cueEx] }

/-- A concrete oracle whose cookie-file load always raises
`FileNotFoundError`. -/
def envNoCookieFile : Env :=
  { loadCookieFile := fun _ => .error .fileNotFoundError,
    listResult := fun _ _ => .ok catalogEx,
    fetchPayload := fun _ _ => .ok [cueEx] }

/-! ## Claim theorems -/

/-- C3: `_load_cookies` raises `CookiePathInvalid` exactly when loading the
cookie file fails (file missing or malformed, i.e. a `CookieLoadError`),
raises `CookiesInvalid` exactly when the file loads but yields an empty jar,
and otherwise returns the loaded jar; the two failure kinds are distinct and
never collapsed into one another. -/
theorem load_cookies_error_classification (env : Env) (c vid : String)
    (hload : ∀ e, env.loadCookieFile c = .error e → e.isCookieLoadError = true) :
    (load_cookies env c vid = .error (.cookiePathInvalid vid) ↔
      ∃ e, env.loadCookieFile c = .error e) ∧
    (load_cookies env c vid = .error (.cookiesInvalid vid) ↔
      env.loadCookieFile c = .ok []) ∧
    (∀ jar, env.loadCookieFile c = .ok jar → jar ≠ [] →
      load_cookies env c vid = .ok jar) ∧
    PyExc.cookiePathInvalid vid ≠ PyExc.cookiesInvalid vid := by
  cases h : env.loadCookieFile c with
  | error e =>
      have he : e.isCookieLoadError = true := hload e h
      refine ⟨?_, ?_, ?_, by simp⟩
      · simp [load_cookies, loadCookiesBody, h, he]
      · simp [load_cookies, loadCookiesBody, h, he]
      · intro jar hjar
        exact absurd hjar (by simp)
  | ok jar =>
      cases jar with
      | nil =>
          refine ⟨?_, ?_, ?_, by simp⟩
          · simp [load_cookies, loadCookiesBody, h, PyExc.isCookieLoadError]
          · simp [load_cookies, loadCookiesBody, h, PyExc.isCookieLoadError]
          · intro jar2 hjar2 hne
            simp at hjar2
            exact absurd hjar2 hne
      | cons a rest =>
          refine ⟨?_, ?_, ?_, by simp⟩
          · simp [load_cookies, loadCookiesBody, h]
          · simp [load_cookies, loadCookiesBody, h]
          · intro jar2 hjar2 hne
            simp at hjar2
            subst hjar2
            simp [load_cookies, loadCookiesBody, h]

/-- Witness for C3: the classification at a concrete oracle whose load
succeeds with a non-empty jar. -/
theorem load_cookies_error_classification_witness :
    (load_cookies envEx "cookies.txt" "vid1" = .error (.cookiePathInvalid "vid1") ↔
      ∃ e, envEx.loadCookieFile "cookies.txt" = .error e) ∧
    (load_cookies envEx "cookies.txt" "vid1" = .error (.cookiesInvalid "vid1") ↔
      envEx.loadCookieFile "cookies.txt" = .ok []) ∧
    (∀ jar, envEx.loadCookieFile "cookies.txt" = .ok jar → jar ≠ [] →
      load_cookies envEx "cookies.txt" "vid1" = .ok jar) ∧
    PyExc.cookiePathInvalid "vid1" ≠ PyExc.cookiesInvalid "vid1" :=
  load_cookies_error_classification envEx "cookies.txt" "vid1"
    (by intro e h; simp [envEx] at h)

/-- C6: `translate` fails with "not translatable" when `is_translatable` is
false; fails with "translation language unavailable" when translatable but the
target code is not offered; otherwise returns a new Descriptor whose
`is_translatable` is false, whose `translation_languages` is empty and whose
`is_generated` equals that of the receiver (which, being a pure value, is
itself unchanged). -/
theorem translate_result_spec (t : Transcript) (code : String) :
    (t.is_translatable = false →
      t.translate code = .error (.notTranslatable t.video_id)) ∧
    (t.is_translatable = true →
      (t.translation_languages.any (fun p => p.1 == code)) = false →
      t.translate code = .error (.translationLanguageNotAvailable t.video_id)) ∧
    (t.is_translatable = true →
      (t.translation_languages.any (fun p => p.1 == code)) = true →
      ∃ t2, t.translate code = .ok t2 ∧ t2.is_translatable = false ∧
        t2.translation_languages = [] ∧ t2.is_generated = t.is_generated) := by
  refine ⟨?_, ?_, ?_⟩
  · intro h
    simp [Transcript.translate, h]
  · intro h1 h2
    simp [Transcript.translate, h1, h2]
  · intro h1 h2
    refine ⟨{ t with is_translatable := false, translation_languages := [] }, ?_, rfl, rfl, rfl⟩
    simp [Transcript.translate, h1, h2]

/-- Witness for C6: translating the concrete Descriptor `transcriptEn` into
its offered target "de". -/
theorem translate_result_spec_witness :
    ∃ t2, transcriptEn.translate "de" = .ok t2 ∧ t2.is_translatable = false ∧
      t2.translation_languages = [] ∧ t2.is_generated = transcriptEn.is_generated :=
  (translate_result_spec transcriptEn "de").2.2 (by decide) (by decide)

/-- C2: on string video ids, `get_transcript` returns exactly the result of
the composition
`list_transcripts(video_id, proxies, cookies, verify).find_transcript(languages).fetch(preserve_formatting=preserve_formatting)`
and raises exactly when that composition raises (the two `Except` values are
equal). -/
theorem get_transcript_eq_composition (env : Env) (video_id : String)
    (languages : List String) (proxies : Option ProxyMap) (cookies : Option String)
    (preserve_formatting : Bool) (verify : Option VerifyValue) :
    get_transcript env (.str video_id) languages proxies cookies preserve_formatting verify =
      listFindFetchComposition env video_id languages proxies cookies verify
        preserve_formatting := by
  have hred : get_transcript env (.str video_id) languages proxies cookies
      preserve_formatting verify =
      getTranscriptBody env video_id languages proxies cookies preserve_formatting verify := rfl
  rw [hred]
  unfold getTranscriptBody listFindFetchComposition
  cases h : list_transcripts env video_id proxies cookies verify with
  | error e => simp [Except.bind]
  | ok tl =>
      cases h2 : tl.find_transcript languages with
      | error e => simp [Except.bind, h2]
      | ok t => simp [Except.bind, h2]

/-- C7: when the caller omits `languages` and `preserve_formatting`, both
`get_transcript` and `get_transcripts` run with the single-entry language
sequence `["en"]` and `preserve_formatting = false`. -/
theorem default_arguments_en_false (env : Env) (video_id video_ids : PyValue)
    (continue_after_error : Bool) (proxies : Option ProxyMap) (cookies : Option String)
    (verify : Option VerifyValue) :
    getTranscriptCall env video_id Option.none proxies cookies Option.none verify =
      get_transcript env video_id ["en"] proxies cookies false verify ∧
    getTranscriptsCall env video_ids Option.none continue_after_error proxies cookies
        Option.none verify =
      get_transcripts env video_ids ["en"] continue_after_error proxies cookies false
        verify :=
  ⟨rfl, rfl⟩

/-! ## Matching lemmas -/

/-- If no Descriptor matches any requested code exactly, the exact pass finds
nothing. -/
theorem findExactPass_eq_none (ds : List Transcript) :
    ∀ req, (∀ c ∈ req, ∀ d ∈ ds, d.language_code ≠ c) → findExactPass ds req = none := by
  intro req
  induction req with
  | nil => intro _; rfl
  | cons c rest ih =>
      intro h
      have hfind : ds.find? (fun d => d.language_code == c) = none := by
        rw [List.find?_eq_none]
        intro d hd
        simp only [beq_iff_eq]
        exact h c (by simp) d hd
      simp only [findExactPass, hfind]
      exact ih fun x hx d hd => h x (List.mem_cons_of_mem c hx) d hd

/-- If no Descriptor shares a primary subtag with any requested code, the
approximate pass finds nothing. -/
theorem findApproxPass_eq_none (ds : List Transcript) :
    ∀ req, (∀ c ∈ req, ∀ d ∈ ds, primarySubtag d.language_code ≠ primarySubtag c) →
      findApproxPass ds req = none := by
  intro req
  induction req with
  | nil => intro _; rfl
  | cons c rest ih =>
      intro h
      have hfind : ds.find? (fun d => primarySubtag d.language_code == primarySubtag c) =
          none := by
        rw [List.find?_eq_none]
        intro d hd
        simp only [beq_iff_eq]
        exact h c (by simp) d hd
      simp only [findApproxPass, hfind]
      exact ih fun x hx d hd => h x (List.mem_cons_of_mem c hx) d hd

/-- Anything the exact pass returns matches one of the requested codes
exactly. -/
theorem findExactPass_exact (ds : List Transcript) :
    ∀ req t, findExactPass ds req = some t → t.language_code ∈ req := by
  intro req
  induction req with
  | nil => intro t ht; exact absurd ht (by simp [findExactPass])
  | cons c rest ih =>
      intro t ht
      cases hfind : ds.find? (fun d => d.language_code == c) with
      | some u =>
          have hu := List.find?_some hfind
          simp only [beq_iff_eq] at hu
          simp only [findExactPass, hfind] at ht
          cases ht
          simp [hu]
      | none =>
          simp only [findExactPass, hfind] at ht
          exact List.mem_cons_of_mem c (ih t ht)

/-- If some Descriptor matches some requested code exactly, the exact pass
succeeds. -/
theorem findExactPass_isSome (ds : List Transcript) :
    ∀ req, (∃ c ∈ req, ∃ d ∈ ds, d.language_code = c) →
      ∃ t, findExactPass ds req = some t := by
  intro req
  induction req with
  | nil => intro h; simp at h
  | cons c rest ih =>
      intro h
      cases hfind : ds.find? (fun d => d.language_code == c) with
      | some u => exact ⟨u, by simp [findExactPass, hfind]⟩
      | none =>
          obtain ⟨c0, hc0, d, hd, hcode⟩ := h
          rcases List.mem_cons.mp hc0 with hc | hc
        

          · subst hc
            have := List.find?_eq_none.mp hfind d hd
            simp only [beq_iff_eq] at this
            exact absurd hcode this
          · obtain ⟨t, ht⟩ := ih ⟨c0, hc, d, hd, hcode⟩
            exact ⟨t, by simp [findExactPass, hfind, ht]⟩

/-- A generated French (France) Descriptor: only an approximate candidate for
requested "fr". -/
def transcriptFrFR : Transcript :=
  { video_id := "vid2", language := "French (France)", language_code := "fr-FR",
    is_generated := true, is_translatable := false, translation_languages := [] }

/-- A Catalog holding an approximate candidate for "fr" and an exact one for
"en". -/
def catalogTwo : TranscriptList :=
  { video_id := "vid2", manually_created_transcripts := [transcriptEn],
    generated_transcripts := [transcriptFrFR] }

/-- C4: when no Descriptor matches any requested code exactly or by primary
subtag, `find_transcript` fails with the typed "no matching transcript found"
failure whose payload enumerates the language codes actually available in the
Catalog. -/
theorem find_transcript_no_match_payload (tl : TranscriptList) (requested : List String)
    (hne : requested ≠ [])
    (h : ∀ c ∈ requested, ∀ d ∈ tl.eitherOriginTranscripts,
      d.language_code ≠ c ∧ primarySubtag d.language_code ≠ primarySubtag c) :
    tl.find_transcript requested =
      .error (.noTranscriptFound tl.video_id requested tl.availableLanguageCodes) := by
  have h1 : findExactPass tl.eitherOriginTranscripts requested = none :=
    findExactPass_eq_none _ requested fun c hc d hd => (h c hc d hd).1
  have h2 : findApproxPass tl.eitherOriginTranscripts requested = none :=
    findApproxPass_eq_none _ requested fun c hc d hd => (h c hc d hd).2
  simp [TranscriptList.find_transcript, findTranscriptIn, h1, h2]

/-- Witness for C4: requesting only "fr" from the English-only `catalogEx`. -/
theorem find_transcript_no_match_payload_witness :
    catalogEx.find_transcript ["fr"] =
      .error (.noTranscriptFound catalogEx.video_id ["fr"] catalogEx.availableLanguageCodes) :=
  find_transcript_no_match_payload catalogEx ["fr"] (by decide) (by decide)

/-- C5: if any requested code has an exact `language_code` match among the
searched Descriptors, `find_transcript` returns an exact match for one of the
requested codes — never an approximate match for a higher-priority code,
because the exact pass over all requested languages completes first. -/
theorem find_transcript_exact_before_approx (tl : TranscriptList)
    (requested : List String) (hne : requested ≠ [])
    (hex : ∃ c ∈ requested, ∃ d ∈ tl.eitherOriginTranscripts, d.language_code = c) :
    ∃ t, tl.find_transcript requested = .ok t ∧ t.language_code ∈ requested := by
  obtain ⟨t, ht⟩ := findExactPass_isSome tl.eitherOriginTranscripts requested hex
  exact ⟨t, by simp [TranscriptList.find_transcript, findTranscriptIn, ht],
    findExactPass_exact tl.eitherOriginTranscripts requested t ht⟩

/-- Witness for C5: `catalogTwo` offers "fr-FR" (approximate for the
higher-priority request "fr") and "en" (exact for the lower-priority
request). -/
theorem find_transcript_exact_before_approx_witness :
    ∃ t, catalogTwo.find_transcript ["fr", "en"] = .ok t ∧
      t.language_code ∈ ["fr", "en"] :=
  find_transcript_exact_before_approx catalogTwo ["fr", "en"] (by decide) (by decide)


/-- The session a successful configuration produces: the selected cookie jar,
with the proxy and verify assignments of `_api.py` lines 72-74 applied. -/
def sessionFor (proxies : Option ProxyMap) (verify : Option VerifyValue)
    (jar : CookieJar) : Session :=
  { cookies := jar,
    proxies := (match proxies with
                | some p => if p.isEmpty then [] else p
                | none => []),
    verify := (match verify with
               | some v => v
               | none => defaultSession.verify) }

/-- With no cookie path, configuration succeeds with the default (empty)
jar. -/
theorem configureSession_none (env : Env) (video_id : String) (proxies : Option ProxyMap)
    (verify : Option VerifyValue) :
    configureSession env video_id proxies none verify =
      .ok (sessionFor proxies verify []) := by
  cases verify <;> rfl

/-- With a falsy (empty-string) cookie path, the `if cookies:` branch is
skipped and configuration succeeds with the default jar. -/
theorem configureSession_someEmpty (env : Env) (video_id : String)
    (proxies : Option ProxyMap) (verify : Option VerifyValue) (c : String)
    (hc : (c == "") = true) :
    configureSession env video_id proxies (some c) verify =
      .ok (sessionFor proxies verify []) := by
  unfold configureSession
  simp only [hc, if_true]
  cases verify <;> rfl

/-- With a truthy cookie path, configuration loads the jar through
`_load_cookies`, propagating its failure. -/
theorem configureSession_someLoad (env : Env) (video_id : String)
    (proxies : Option ProxyMap) (verify : Option VerifyValue) (c : String)
    (hc : (c == "") = false) :
    configureSession env video_id proxies (some c) verify =
      Except.map (sessionFor proxies verify) (load_cookies env c video_id) := by
  unfold configureSession
  simp only [hc, Bool.false_eq_true, if_false]
  cases hl : load_cookies env c video_id with
  | error e => cases verify <;> simp [Except.map]
  | ok jar => cases verify <;> simp [Except.map, sessionFor]

/-- The proxy map of a configured session is the given map, or empty. -/
theorem sessionFor_proxies (proxies : Option ProxyMap) (verify : Option VerifyValue)
    (jar : CookieJar) :
    (sessionFor proxies verify jar).proxies = Option.getD proxies [] := by
  cases proxies with
  | none => rfl
  | some p => cases p <;> simp [sessionFor, Option.getD]

/-- The verify setting of a configured session is the given value, or the
session default. -/
theorem sessionFor_verify (proxies : Option ProxyMap) (verify : Option VerifyValue)
    (jar : CookieJar) :
    (sessionFor proxies verify jar).verify = Option.getD verify defaultSession.verify := by
  cases verify <;> rfl

/-- C8: whenever `list_transcripts`'s session configuration succeeds, the
caller-supplied transport configuration reaches the session unmodified: the
proxies equal the given map (or the empty map when none is given), the verify
setting equals the given value when one is given (session default otherwise),
and the cookie jar is the one `_load_cookies` returned whenever a (truthy)
cookie path is given — and stays the session default when no truthy path is
given. -/
theorem session_config_passthrough (env : Env) (video_id : String)
    (proxies : Option ProxyMap) (cookies : Option String) (verify : Option VerifyValue)
    (s : Session) (hs : configureSession env video_id proxies cookies verify = .ok s) :
    s.proxies = Option.getD proxies [] ∧
    s.verify = Option.getD verify defaultSession.verify ∧
    (∀ c, cookies = some c → c ≠ "" →
      ∃ jar, load_cookies env c video_id = .ok jar ∧ s.cookies = jar) ∧
    (cookiesTruthy cookies = false → s.cookies = defaultSession.cookies) := by
  cases cookies with
  | none =>
      rw [configureSession_none] at hs
      have hseq := Except.ok.inj hs
      subst hseq
      refine ⟨sessionFor_proxies proxies verify [], sessionFor_verify proxies verify [], ?_, ?_⟩
      · intro c hc
        exact absurd hc (by simp)
      · intro _
        rfl
  | some c =>
      cases hc : (c == "") with
      | true =>
          rw [configureSession_someEmpty env video_id proxies verify c hc] at hs
          have hseq := Except.ok.inj hs
          subst hseq
          refine ⟨sessionFor_proxies proxies verify [], sessionFor_verify proxies verify [],
            ?_, fun _ => rfl⟩
          intro c0 hc0 hne0
          cases hc0
          exact absurd (by simpa using hc) hne0
      | false =>
          rw [configureSession_someLoad env video_id proxies verify c hc] at hs
          cases hl : load_cookies env c video_id with
          | error e =>
              rw [hl] at hs
              exact absurd hs (by simp [Except.map])
          | ok jar =>
              rw [hl] at hs
              simp only [Except.map] at hs
              have hseq := Except.ok.inj hs
              subst hseq
              refine ⟨sessionFor_proxies proxies verify jar,
                sessionFor_verify proxies verify jar, ?_, ?_⟩
              · intro c0 hc0 hne0
                cases hc0
                exact ⟨jar, hl, rfl⟩
              · intro htr
                simp [cookiesTruthy, hc] at htr

/-- A concrete proxy map. -/
def proxyEx : ProxyMap := [("http", "proxy1")]

/-- The session `configureSession` builds for the witness arguments. -/
def sessionEx : Session :=
  { cookies := ["cookie1"], proxies := proxyEx, verify := VerifyValue.caPath "ca.pem" }

/-- Witness for C8: configuring a session with a proxy map, a cookie path and
a CA path against the concrete oracle `envEx`. -/
theorem session_config_passthrough_witness :
    sessionEx.proxies = (match (some proxyEx : Option ProxyMap) with
        | some p => p
        | none => []) ∧
    sessionEx.verify = (match (some (VerifyValue.caPath "ca.pem") : Option VerifyValue) with
        | some v => v
        | none => defaultSession.verify) ∧
    (∀ c, (some "cookies.txt" : Option String) = some c → c ≠ "" →
      ∃ jar, load_cookies envEx c "vid1" = .ok jar ∧ sessionEx.cookies = jar) ∧
    (cookiesTruthy (some "cookies.txt") = false →
      sessionEx.cookies = defaultSession.cookies) :=
  session_config_passthrough envEx "vid1" (some proxyEx) (some "cookies.txt")
    (some (VerifyValue.caPath "ca.pem")) sessionEx rfl

/-- C10: `get_transcript` fails with `AssertionError` whenever `video_id` is
not a string, and `get_transcripts` fails with `AssertionError` whenever
`video_ids` is not a list — in both cases for every oracle, so no network
operation can have been performed; on a string / list argument the assertion
branch is not taken and the respective body runs. -/
theorem isinstance_assertions (env : Env) (languages : List String)
    (continue_after_error : Bool) (proxies : Option ProxyMap) (cookies : Option String)
    (preserve_formatting : Bool) (verify : Option VerifyValue) :
    (∀ v : PyValue, v.isinstanceStr = false →
      get_transcript env v languages proxies cookies preserve_formatting verify =
        .error .assertionError) ∧
    (∀ v : PyValue, v.isinstanceList = false →
      get_transcripts env v languages continue_after_error proxies cookies
        preserve_formatting verify = .error .assertionError) ∧
    (∀ s : String,
      get_transcript env (.str s) languages proxies cookies preserve_formatting verify =
        getTranscriptBody env s languages proxies cookies preserve_formatting verify) ∧
    (∀ ids : List String,
      get_transcripts env (.pylist ids) languages continue_after_error proxies cookies
        preserve_formatting verify =
        getTranscriptsLoop env languages continue_after_error proxies cookies
          preserve_formatting verify ids [] []) := by
  refine ⟨?_, ?_, fun s => rfl, fun ids => rfl⟩
  · intro v hv
    cases v with
    | str s => simp [PyValue.isinstanceStr] at hv
    | intVal n => rfl
    | boolVal b => rfl
    | noneVal => rfl
    | pylist xs => rfl
  · intro v hv
    cases v with
    | pylist xs => simp [PyValue.isinstanceList] at hv
    | str s => rfl
    | intVal n => rfl
    | boolVal b => rfl
    | noneVal => rfl

/-- Witness for C10: an integer video id hits the assertion of
`get_transcript` under the concrete oracle `envEx`. -/
theorem isinstance_assertions_witness :
    get_transcript envEx (.intVal 7) ["en"] Option.none Option.none false Option.none =
      .error .assertionError :=
  (isinstance_assertions envEx ["en"] false Option.none Option.none false Option.none).1
    (.intVal 7) rfl

/-! ## Loop lemmas for `get_transcripts` -/

/-- With `continue_after_error = True`, the loop never raises: the dict is the
fold of the per-id steps and the unretrievable list collects, in input order,
exactly the failing ids. -/
theorem getTranscriptsLoop_true_eq (env : Env) (languages : List String)
    (proxies : Option ProxyMap) (cookies : Option String) (preserve_formatting : Bool)
    (verify : Option VerifyValue) :
    ∀ ids data unret,
      getTranscriptsLoop env languages true proxies cookies preserve_formatting verify
          ids data unret =
        .ok (ids.foldl (dataStep env languages proxies cookies preserve_formatting verify)
              data,
          unret ++ ids.filter
            (fetchFails env languages proxies cookies preserve_formatting verify)) := by
  intro ids
  induction ids with
  | nil => intro data unret; simp [getTranscriptsLoop]
  | cons vid rest ih =>
      intro data unret
      cases hv : get_transcript env (.str vid) languages proxies cookies
          preserve_formatting verify with
      | ok t =>
          have hf : fetchFails env languages proxies cookies preserve_formatting verify
              vid = false := by simp [fetchFails, hv]
          simp only [getTranscriptsLoop, hv]
          rw [ih]
          simp [dataStep, hv, List.filter_cons, hf]
      | error e =>
          have hf : fetchFails env languages proxies cookies preserve_formatting verify
              vid = true := by simp [fetchFails, hv]
          simp only [getTranscriptsLoop, hv, if_true]
          rw [ih]
          simp [dataStep, hv, List.filter_cons, hf]

/-- With `continue_after_error = False`, the first failing id re-raises its
exception, whatever the ids after it would have done. -/
theorem getTranscriptsLoop_false_error (env : Env) (languages : List String)
    (proxies : Option ProxyMap) (cookies : Option String) (preserve_formatting : Bool)
    (verify : Option VerifyValue) (vx : String) (e : PyExc) (post : List String)
    (hv : get_transcript env (.str vx) languages proxies cookies preserve_formatting
      verify = .error e) :
    ∀ pre data unret,
      (∀ u ∈ pre,
        fetchFails env languages proxies cookies preserve_formatting verify u = false) →
      getTranscriptsLoop env languages false proxies cookies preserve_formatting verify
        (pre ++ vx :: post) data unret = .error e := by
  intro pre
  induction pre with
  | nil =>
      intro data unret _
      simp [getTranscriptsLoop, hv]
  | cons u pre ih =>
      intro data unret hpre
      have hu : fetchFails env languages proxies cookies preserve_formatting verify u =
          false := hpre u (by simp)
      obtain ⟨t, ht⟩ : ∃ t, get_transcript env (.str u) languages proxies cookies
          preserve_formatting verify = .ok t := by
        revert hu
        unfold fetchFails
        cases get_transcript env (.str u) languages proxies cookies preserve_formatting
            verify with
        | ok t => intro _; exact ⟨t, rfl⟩
        | error e2 => intro h; simp at h
      simp only [List.cons_append, getTranscriptsLoop, ht]
      exact ih (dictInsert data u t) unret fun x hx => hpre x (List.mem_cons_of_mem u hx)

/-- C1: if retrieval fails for some id (all earlier ids succeeding): with
`continue_after_error = False`, `get_transcripts` re-raises that exception (no
later id affects the outcome, which holds for every oracle behaviour on the
later ids); with `continue_after_error = True`, the failing id is appended to
the unretrievable list and processing continues over the remaining ids. -/
theorem get_transcripts_error_propagation (env : Env) (languages : List String)
    (proxies : Option ProxyMap) (cookies : Option String) (preserve_formatting : Bool)
    (verify : Option VerifyValue) (pre post : List String) (vx : String) (e : PyExc)
    (hpre : ∀ u ∈ pre,
      fetchFails env languages proxies cookies preserve_formatting verify u = false)
    (hv : get_transcript env (.str vx) languages proxies cookies preserve_formatting
      verify = .error e) :
    get_transcripts env (.pylist (pre ++ vx :: post)) languages false proxies cookies
        preserve_formatting verify = .error e ∧
    ∃ d u, get_transcripts env (.pylist (pre ++ vx :: post)) languages true proxies
        cookies preserve_formatting verify = .ok (d, u) ∧
      u = pre.filter (fetchFails env languages proxies cookies preserve_formatting verify)
            ++ vx :: post.filter
              (fetchFails env languages proxies cookies preserve_formatting verify) ∧
      vx ∈ u ∧
      d = (pre ++ vx :: post).foldl
            (dataStep env languages proxies cookies preserve_formatting verify) [] := by
  have hfv : fetchFails env languages proxies cookies preserve_formatting verify vx =
      true := by simp [fetchFails, hv]
  constructor
  · exact getTranscriptsLoop_false_error env languages proxies cookies preserve_formatting
      verify vx e post hv pre [] [] hpre
  · refine ⟨(pre ++ vx :: post).foldl
        (dataStep env languages proxies cookies preserve_formatting verify) [],
      pre.filter (fetchFails env languages proxies cookies preserve_formatting verify)
        ++ vx :: post.filter
          (fetchFails env languages proxies cookies preserve_formatting verify),
      ?_, rfl, ?_, rfl⟩
    · have hloop := getTranscriptsLoop_true_eq env languages proxies cookies
        preserve_formatting verify (pre ++ vx :: post) [] []
      rw [show get_transcripts env (.pylist (pre ++ vx :: post)) languages true proxies
          cookies preserve_formatting verify =
          getTranscriptsLoop env languages true proxies cookies preserve_formatting verify
            (pre ++ vx :: post) [] [] from rfl, hloop]
      simp [List.filter_append, List.filter_cons, hfv]
    · simp

/-- Witness for C1: under the concrete oracle `envEx`, "good" succeeds and
"bad" fails. -/
theorem get_transcripts_error_propagation_witness :
    get_transcripts envEx (.pylist (["good"] ++ "bad" :: ["after"])) ["en"] false
        Option.none Option.none false Option.none =
      .error (.couldNotRetrieveTranscript "bad") ∧
    ∃ d u, get_transcripts envEx (.pylist (["good"] ++ "bad" :: ["after"])) ["en"] true
        Option.none Option.none false Option.none = .ok (d, u) ∧
      u = (["good"].filter
            (fetchFails envEx ["en"] Option.none Option.none false Option.none))
            ++ "bad" :: (["after"].filter
              (fetchFails envEx ["en"] Option.none Option.none false Option.none)) ∧
      "bad" ∈ u ∧
      d = (["good"] ++ "bad" :: ["after"]).foldl
            (dataStep envEx ["en"] Option.none Option.none false Option.none) [] :=
  get_transcripts_error_propagation envEx ["en"] Option.none Option.none false
    Option.none ["good"] ["after"] "bad" (.couldNotRetrieveTranscript "bad")
    (by decide) rfl

/-! ## Dict-key lemmas for C9 -/

/-- Keys after a dict assignment: unchanged when the key was present, the key
appended otherwise. -/
theorem dictInsert_keys_map (d : List (String × List Cue)) (k : String) (v : List Cue) :
    (dictInsert d k v).map Prod.fst =
      if d.any (fun p => p.1 == k) then d.map Prod.fst else d.map Prod.fst ++ [k] := by
  unfold dictInsert
  cases hk : d.any (fun p => p.1 == k) with
  | false => simp
  | true =>
      simp only [if_true, List.map_map]
      apply List.map_congr_left
      intro p hp
      by_cases hpk : (p.1 == k) = true
      · have hpq : p.1 = k := by simpa using hpk
        simp [Function.comp, hpk, hpq]
      · simp [Function.comp, hpk]

/-- Membership in the keys after a dict assignment. -/
theorem mem_dictInsert_keys (d : List (String × List Cue)) (k : String) (v : List Cue)
    (x : String) :
    x ∈ (dictInsert d k v).map Prod.fst ↔ (x ∈ d.map Prod.fst ∨ x = k) := by
  rw [dictInsert_keys_map]
  cases hk : d.any (fun p => p.1 == k) with
  | true =>
      simp only [if_true]
      constructor
      · exact Or.inl
      · rintro (h | h)
        · exact h
        · subst h
          simp only [List.any_eq_true] at hk
          obtain ⟨p, hp, hpk⟩ := hk
          have hpq : p.1 = x := by simpa using hpk
          exact List.mem_map.mpr ⟨p, hp, hpq⟩
  | false => simp [List.mem_append]

/-- Membership in the keys of the accumulated dict after folding the
per-video step: a key of the accumulator, or a successfully retrieved id. -/
theorem foldl_dataStep_mem_keys (env : Env) (languages : List String)
    (proxies : Option ProxyMap) (cookies : Option String) (preserve_formatting : Bool)
    (verify : Option VerifyValue) :
    ∀ (ids : List String) (data : List (String × List Cue)) (x : String),
      (x ∈ (ids.foldl (dataStep env languages proxies cookies preserve_formatting verify)
          data).map Prod.fst) ↔
        (x ∈ data.map Prod.fst ∨ (x ∈ ids ∧
          fetchFails env languages proxies cookies preserve_formatting verify x = false)) := by
  intro ids
  induction ids with
  | nil => intro data x; simp
  | cons y rest ih =>
      intro data x
      rw [List.foldl_cons, ih]
      cases hy : get_transcript env (.str y) languages proxies cookies preserve_formatting
          verify with
      | ok t =>
          have hfy : fetchFails env languages proxies cookies preserve_formatting verify y =
              false := by simp [fetchFails, hy]
          rw [show dataStep env languages proxies cookies preserve_formatting verify data y =
              dictInsert data y t by simp [dataStep, hy]]
          rw [mem_dictInsert_keys]
          constructor
          · rintro ((h | h) | ⟨hm, hf⟩)
            · exact Or.inl h
            · subst h
              exact Or.inr ⟨by simp, hfy⟩
            · exact Or.inr ⟨List.mem_cons_of_mem y hm, hf⟩
          · rintro (h | ⟨hm, hf⟩)
            · exact Or.inl (Or.inl h)
            · rcases List.mem_cons.mp hm with h1 | h1
              · subst h1
                exact Or.inl (Or.inr rfl)
              · exact Or.inr ⟨h1, hf⟩
      | error e =>
          have hfy : fetchFails env languages proxies cookies preserve_formatting verify y =
              true := by simp [fetchFails, hy]
          rw [show dataStep env languages proxies cookies preserve_formatting verify data y =
              data by simp [dataStep, hy]]
          constructor
          · rintro (h | ⟨hm, hf⟩)
            · exact Or.inl h
            · exact Or.inr ⟨List.mem_cons_of_mem y hm, hf⟩
          · rintro (h | ⟨hm, hf⟩)
            · exact Or.inl h
            · rcases List.mem_cons.mp hm with h1 | h1
              · subst h1
                rw [hfy] at hf
                exact absurd hf (by simp)
              · exact Or.inr ⟨h1, hf⟩

/-- The instrumented loop computes the same result as the plain loop. -/
theorem getTranscriptsLoopTraced_fst (env : Env) (languages : List String)
    (continue_after_error : Bool) (proxies : Option ProxyMap) (cookies : Option String)
    (preserve_formatting : Bool) (verify : Option VerifyValue) :
    ∀ ids data unret,
      (getTranscriptsLoopTraced env languages continue_after_error proxies cookies
          preserve_formatting verify ids data unret).1 =
        getTranscriptsLoop env languages continue_after_error proxies cookies
          preserve_formatting verify ids data unret := by
  intro ids
  induction ids with
  | nil => intro data unret; rfl
  | cons vid rest ih =>
      intro data unret
      cases hv : get_transcript env (.str vid) languages proxies cookies
          preserve_formatting verify with
      | ok t =>
          simp only [getTranscriptsLoopTraced, getTranscriptsLoop, hv]
          exact ih (dictInsert data vid t) unret
      | error e =>
          cases continue_after_error with
          | true =>
              simp only [getTranscriptsLoopTraced, getTranscriptsLoop, hv, if_true]
              exact ih data (unret ++ [vid])
          | false =>
              simp [getTranscriptsLoopTraced, getTranscriptsLoop, hv]

/-- With `continue_after_error = True`, every id in the input list is passed
to `get_transcript`, in input order. -/
theorem getTranscriptsLoopTraced_true_snd (env : Env) (languages : List String)
    (proxies : Option ProxyMap) (cookies : Option String) (preserve_formatting : Bool)
    (verify : Option VerifyValue) :
    ∀ ids data unret,
      (getTranscriptsLoopTraced env languages true proxies cookies preserve_formatting
          verify ids data unret).2 = ids := by
  intro ids
  induction ids with
  | nil => intro data unret; rfl
  | cons vid rest ih =>
      intro data unret
      cases hv : get_transcript env (.str vid) languages proxies cookies
          preserve_formatting verify with
      | ok t =>
          simp only [getTranscriptsLoopTraced, hv]
          rw [ih (dictInsert data vid t) unret]
      | error e =>
          simp only [getTranscriptsLoopTraced, hv, if_true]
          rw [ih data (unret ++ [vid])]

/-- C9: with pairwise-distinct ids and `continue_after_error = True`,
`get_transcripts` succeeds and every input id appears in exactly one of the
two returned components — as a key of the transcript dict iff its retrieval
succeeded, in the unretrievable list iff it failed, never both; each id is
passed to `get_transcript` exactly once; and the unretrievable list is the
input-order sublist of the failing ids. -/
theorem get_transcripts_partition (env : Env) (languages : List String)
    (proxies : Option ProxyMap) (cookies : Option String) (preserve_formatting : Bool)
    (verify : Option VerifyValue) (ids : List String) (hnd : ids.Nodup) :
    ∃ d u, get_transcripts env (.pylist ids) languages true proxies cookies
        preserve_formatting verify = .ok (d, u) ∧
      (∀ vid ∈ ids, (vid ∈ d.map Prod.fst ↔
        fetchFails env languages proxies cookies preserve_formatting verify vid = false)) ∧
      (∀ vid ∈ ids, (vid ∈ u ↔
        fetchFails env languages proxies cookies preserve_formatting verify vid = true)) ∧
      (∀ vid ∈ ids, ¬(vid ∈ d.map Prod.fst ∧ vid ∈ u)) ∧
      u = ids.filter (fetchFails env languages proxies cookies preserve_formatting verify) ∧
      (getTranscriptsLoopTraced env languages true proxies cookies preserve_formatting
          verify ids [] []).2 = ids ∧
      (∀ vid ∈ ids,
        ((getTranscriptsLoopTraced env languages true proxies cookies preserve_formatting
            verify ids [] []).2).count vid = 1) := by
  have htr := getTranscriptsLoopTraced_true_snd env languages proxies cookies
    preserve_formatting verify ids [] []
  refine ⟨ids.foldl (dataStep env languages proxies cookies preserve_formatting verify) [],
    ids.filter (fetchFails env languages proxies cookies preserve_formatting verify),
    ?_, ?_, ?_, ?_, rfl, htr, ?_⟩
  · rw [show get_transcripts env (.pylist ids) languages true proxies cookies
        preserve_formatting verify =
        getTranscriptsLoop env languages true proxies cookies preserve_formatting verify
          ids [] [] from rfl,
      getTranscriptsLoop_true_eq env languages proxies cookies preserve_formatting verify
        ids [] []]
    simp
  · intro vid hm
    rw [foldl_dataStep_mem_keys]
    simp only [List.map_nil, List.not_mem_nil, false_or]
    constructor
    · rintro ⟨_, hf⟩
      exact hf
    · intro hf
      exact ⟨hm, hf⟩
  · intro vid hm
    rw [List.mem_filter]
    constructor
    · rintro ⟨_, hf⟩
      exact hf
    · intro hf
      exact ⟨hm, hf⟩
  · intro vid hm h
    obtain ⟨hkey, hu⟩ := h
    rw [foldl_dataStep_mem_keys] at hkey
    simp only [List.map_nil, List.not_mem_nil, false_or] at hkey
    obtain ⟨hm2, hf2⟩ := List.mem_filter.mp hu
    simp [hkey.2] at hf2
  · intro vid hm
    rw [htr]
    exact List.count_eq_one_of_mem hnd hm

/-- Witness for C9: the two distinct ids "good" (succeeds) and "bad" (fails)
under the concrete oracle `envEx`. -/
theorem get_transcripts_partition_witness :
    ∃ d u, get_transcripts envEx (.pylist ["good", "bad"]) ["en"] true Option.none
        Option.none false Option.none = .ok (d, u) ∧
      (∀ vid ∈ ["good", "bad"], (vid ∈ d.map Prod.fst ↔
        fetchFails envEx ["en"] Option.none Option.none false Option.none vid = false)) ∧
      (∀ vid ∈ ["good", "bad"], (vid ∈ u ↔
        fetchFails envEx ["en"] Option.none Option.none false Option.none vid = true)) ∧
      (∀ vid ∈ ["good", "bad"], ¬(vid ∈ d.map Prod.fst ∧ vid ∈ u)) ∧
      u = (["good", "bad"]).filter
        (fetchFails envEx ["en"] Option.none Option.none false Option.none) ∧
      (getTranscriptsLoopTraced envEx ["en"] true Option.none Option.none false
          Option.none ["good", "bad"] [] []).2 = ["good", "bad"] ∧
      (∀ vid ∈ ["good", "bad"],
        ((getTranscriptsLoopTraced envEx ["en"] true Option.none Option.none false
            Option.none ["good", "bad"] [] []).2).count vid = 1) :=
  get_transcripts_partition envEx ["en"] Option.none Option.none false Option.none
    ["good", "bad"] (by decide)
